import Mathlib

/-
Verification of the Fastify MCP adapter (session registry and request routing).

The development shallowly embeds the two Fastify adapters of the repository:

* `registerMcpServer` in `src/server/fastify.ts`, with its anonymous POST, GET
  and DELETE route handlers, its `onClose` shutdown hook, and the
  `onsessioninitialized` / `onclose` callbacks it installs on each
  `StreamableHTTPServerTransport`;
* `registerMcpRoutes` and `createStatelessMcpHandler` in the second adapter
  file (its `handleSessionRequest` helper included).

The `StreamableHTTPServerTransport` class itself is part of the repository but
not among the excerpted sources; its behavior during `handleRequest` (whether a
session identifier is assigned, whether the promise resolves or rejects) is
modelled from the spec as oracle inputs to each step, and the spec's contracts
about it (stateless transports assign no identifier; the injected generator
returns values unique across the registry's lifetime) appear as explicit
hypotheses on traces.

JavaScript semantics captured by the embedding:

* the header value `request.headers["mcp-session-id"]` is `string | undefined`;
  both `undefined` and the empty string are falsy, so the handlers treat an
  empty header exactly like an absent one (`sidOf`);
* the table `transportMap` / `transports` is a plain object: assignment keeps
  the position of an existing key and appends a new key, `delete` removes the
  key, and `for ... in` visits keys in insertion order (association list with
  `tinsert`, `terase`, in-order fold);
* a `try { await f() } catch` around a rejected promise runs the catch block;
  which awaited call rejects is an oracle input.
-/

/-! ## Association table with JavaScript object semantics -/

/-- Lookup of a key in the transport table (`transportMap[k]`). -/
def tlookup (k : String) : List (String × Nat) → Option Nat
  | [] => none
  | (k', v) :: rest => if k' = k then some v else tlookup k rest

/-- Assignment `transportMap[k] = v`: updates an existing key in place,
appends a fresh key at the end, as a JavaScript object does. -/
def tinsert (k : String) (v : Nat) : List (String × Nat) → List (String × Nat)
  | [] => [(k, v)]
  | (k', v') :: rest =>
      if k' = k then (k, v) :: rest else (k', v') :: tinsert k v rest

/-- Deletion `delete transportMap[k]`. -/
def terase (k : String) : List (String × Nat) → List (String × Nat)
  | [] => []
  | (k', v') :: rest => if k' = k then rest else (k', v') :: terase k rest

@[simp]
theorem tlookup_nil (k : String) : tlookup k [] = none := rfl

@[simp]
theorem tlookup_cons (k k' : String) (v : Nat) (t : List (String × Nat)) :
    tlookup k ((k', v) :: t) = if k' = k then some v else tlookup k t := rfl

@[simp]
theorem tlookup_tinsert_self (k : String) (v : Nat) (t : List (String × Nat)) :
    tlookup k (tinsert k v t) = some v := by
  induction t with
  | nil => simp [tinsert]
  | cons p rest ih =>
      obtain ⟨k', v'⟩ := p
      by_cases h : k' = k <;> simp [tinsert, h, ih]

theorem tlookup_tinsert_ne (k j : String) (v : Nat) (t : List (String × Nat))
    (h : j ≠ k) : tlookup k (tinsert j v t) = tlookup k t := by
  induction t with
  | nil => simp [tinsert, h]
  | cons p rest ih =>
      obtain ⟨k', v'⟩ := p
      by_cases hk : k' = j
      · subst hk
        simp [tinsert, h]
      · simp [tinsert, hk, ih]

theorem tlookup_terase_ne (k j : String) (t : List (String × Nat))
    (h : j ≠ k) : tlookup k (terase j t) = tlookup k t := by
  induction t with
  | nil => simp [terase]
  | cons p rest ih =>
      obtain ⟨k', v'⟩ := p
      by_cases hk : k' = j
      · subst hk
        simp [terase, h]
      · simp [terase, hk, ih]

theorem tlookup_terase_of_none (k j : String) (t : List (String × Nat))
    (h : tlookup k t = none) : tlookup k (terase j t) = none := by
  induction t with
  | nil => simp [terase]
  | cons p rest ih =>
      obtain ⟨k', v'⟩ := p
      by_cases hk : k' = j
      · subst hk
        simp only [tlookup_cons] at h
        split at h
        · exact absurd h (by simp)
        · simpa [terase] using h
      · simp only [tlookup_cons] at h
        split at h
        · exact absurd h (by simp)
        · simp_all [terase, hk]

theorem tlookup_tinsert_of_none (k j : String) (v : Nat) (t : List (String × Nat))
    (hj : j ≠ k) (h : tlookup k t = none) : tlookup k (tinsert j v t) = none := by
  rw [tlookup_tinsert_ne k j v t hj]
  exact h

/-- Keys of the table, in object-iteration order. -/
def tkeys (t : List (String × Nat)) : List String := t.map Prod.fst

theorem tlookup_eq_none_of_not_mem (k : String) (t : List (String × Nat))
    (h : k ∉ tkeys t) : tlookup k t = none := by
  induction t with
  | nil => rfl
  | cons p rest ih =>
      obtain ⟨k', v'⟩ := p
      simp only [tkeys, List.map_cons, List.mem_cons] at h
      push_neg at h
      have hne : ¬ k' = k := fun hkk => h.1 hkk.symm
      simp [hne, ih (by simpa [tkeys] using h.2)]

theorem mem_tkeys_of_tlookup (k : String) (t : List (String × Nat))
    (h : (tlookup k t).isSome) : k ∈ tkeys t := by
  by_contra hmem
  rw [tlookup_eq_none_of_not_mem k t hmem] at h
  simp at h

theorem tkeys_tinsert (k : String) (v : Nat) (t : List (String × Nat)) :
    tkeys (tinsert k v t) = if k ∈ tkeys t then tkeys t else tkeys t ++ [k] := by
  induction t with
  | nil => simp [tinsert, tkeys]
  | cons p rest ih =>
      obtain ⟨k', v'⟩ := p
      by_cases hk : k' = k
      · subst hk
        simp [tinsert, tkeys]
      · have hne : k ≠ k' := fun h => hk h.symm
        simp only [tinsert, if_neg hk, tkeys, List.map_cons, List.mem_cons]
        simp only [tkeys] at ih
        rw [ih]
        by_cases hmem : k ∈ rest.map Prod.fst <;> simp [hmem, hne]

theorem tkeys_tinsert_nodup (k : String) (v : Nat) (t : List (String × Nat))
    (h : (tkeys t).Nodup) : (tkeys (tinsert k v t)).Nodup := by
  rw [tkeys_tinsert]
  split
  · exact h
  · next hnm => simpa [List.nodup_append] using ⟨h, hnm⟩

theorem terase_sublist (k : String) (t : List (String × Nat)) :
    (terase k t).Sublist t := by
  induction t with
  | nil => simp [terase]
  | cons p rest ih =>
      obtain ⟨k', v'⟩ := p
      by_cases hk : k' = k
      · simp only [terase, if_pos hk]
        exact List.sublist_cons_self _ _
      · simp only [terase, if_neg hk]
        exact List.Sublist.cons₂ _ ih

theorem tkeys_terase_nodup (k : String) (t : List (String × Nat))
    (h : (tkeys t).Nodup) : (tkeys (terase k t)).Nodup :=
  ((terase_sublist k t).map Prod.fst).nodup h

/-! ## Request, oracle, outcome and state types -/

/-- HTTP verb dispatched by the Fastify router to the registered handlers. -/
inductive Verb
  | post
  | get
  | delete
deriving DecidableEq, Repr

/-- Oracle inputs standing for the externally-determined behavior of the
`McpServer` and `StreamableHTTPServerTransport` collaborators during one
request (modelled from the spec, as the transport source is not excerpted):
whether `server.connect` resolves, which session identifier the transport
assigns during an initialization `handleRequest` (`none` in stateless mode or
when it fails before assigning one), whether `handleRequest` resolves, whether
`reply.sent` is observed in a catch block, and whether `transport.close()`
resolves. -/
structure Orc where
  connectOk : Bool
  assignedId : Option String
  handleOk : Bool
  sent : Bool
  closeOk : Bool
deriving DecidableEq, Repr

/-- Observable outcome of one handler run, as written to the reply. -/
inductive Out
  /-- The request was routed to the transport's `handleRequest`, which writes
  the reply itself. -/
  | delegated (tid : Nat)
  /-- GET with a known session: `reply.raw.writeHead(200, SSE headers)` was
  performed before delegating to the transport. -/
  | sse (tid : Nat)
  /-- DELETE success: `rawReply.statusCode = 200` and the response is ended
  with an empty body. -/
  | okEmpty
  /-- Status 400 with the buffered JSON-RPC envelope, error code -32000,
  message "Bad Request: No valid session ID provided". -/
  | badSessionJson
  /-- Status 500 with the buffered JSON-RPC envelope, error code -32603,
  message "Internal server error". -/
  | internalJson
  /-- Status 400 with the plain-text body "Invalid or missing session ID". -/
  | badSessionText
  /-- Status 500 with the plain-text body "Error processing session
  termination". -/
  | internalText
  /-- Status 405 with the buffered JSON-RPC envelope, error code -32000,
  message "Method not allowed in stateless mode". -/
  | methodNotAllowed
  /-- A handler fault was caught after `reply.sent` was already true; the
  handler adds nothing to the reply. -/
  | noReply
  /-- An error escaped the route handler uncaught and propagates to the
  framework (only possible in the second adapter, which has no try/catch). -/
  | uncaught
  /-- Internal event (transport closure, server shutdown), no HTTP reply. -/
  | silent
deriving DecidableEq, Repr

/-- HTTP status written by the registry-level handler itself; `none` when the
status is decided by the delegated transport (or nothing is written). -/
def statusOf : Out → Option Nat
  | .delegated _ => none
  | .sse _ => some 200
  | .okEmpty => some 200
  | .badSessionJson => some 400
  | .internalJson => some 500
  | .badSessionText => some 400
  | .internalText => some 500
  | .methodNotAllowed => some 405
  | .noReply => none
  | .uncaught => none
  | .silent => none

/-- Body kind written by the registry-level handler. -/
inductive BodyKind
  /-- The buffered JSON envelope with the given error code and id null. -/
  | envelope (code : Int)
  | text (s : String)
  | empty
  /-- The body is produced by the delegated transport. -/
  | stream
  | nothing
deriving DecidableEq, Repr

/-- Body written for each outcome, following the literal `send` payloads of the
handlers. -/
def bodyOf : Out → BodyKind
  | .delegated _ => .stream
  | .sse _ => .stream
  | .okEmpty => .empty
  | .badSessionJson => .envelope (-32000)
  | .internalJson => .envelope (-32603)
  | .badSessionText => .text "Invalid or missing session ID"
  | .internalText => .text "Error processing session termination"
  | .methodNotAllowed => .envelope (-32000)
  | .noReply => .nothing
  | .uncaught => .nothing
  | .silent => .nothing

/-- The transport, if any, whose `handleRequest` this outcome delegated to. -/
def routedTransport : Out → Option Nat
  | .delegated tid => some tid
  | .sse tid => some tid
  | _ => none

/-- Truthiness of the `mcp-session-id` header value: JavaScript treats both
`undefined` and the empty string as falsy, so `sessionId && ...` and
`!sessionId` distinguish only nonempty values. -/
def sidOf : Option String → Option String
  | none => none
  | some s => if s = "" then none else some s

/-- State of one `registerMcpServer` registration. `transportMap` is the
session table of the closure; `transportSid` records the session identifier
each created transport was assigned (its `sessionId` property, read by its
`onclose` callback); `gens` records every identifier returned by the injected
generator so far (bookkeeping for the generator's uniqueness contract); `next`
numbers the transports in creation order. -/
structure St where
  transportMap : List (String × Nat)
  transportSid : List (Nat × String)
  gens : List String
  next : Nat
deriving DecidableEq, Repr

/-- Initial state: the table starts empty at registration. -/
def st0 : St := ⟨[], [], [], 0⟩

/-- Lookup of `transport.sessionId` for a created transport. -/
def sidOfTransport (tid : Nat) : List (Nat × String) → Option String
  | [] => none
  | (tid', s) :: rest => if tid' = tid then some s else sidOfTransport tid rest

/-! ## The `registerMcpServer` route handlers (`src/server/fastify.ts`) -/

/-- POST handler registered by `registerMcpServer`. Mirrors the source: if the
header is truthy and `transportMap[sessionId]` exists, delegate to that
transport; else if the header is falsy and the body is an initialization
request, create a transport (numbered `s.next`) whose session-init callback
stores `transportMap[sid] = transport` when `sid` is truthy, connect a fresh
server to it and delegate; otherwise reply 400 with the -32000 envelope. A
rejection of `server.connect` or `transport.handleRequest` is caught and
answered with the 500 envelope when `reply.sent` is still false. The session
table gains the assigned identifier even when `handleRequest` later rejects,
since the init callback runs during handling, before the rejection. -/
def registerMcpServerPost (s : St) (hdr : Option String) (isInit : Bool)
    (orc : Orc) : St × Out :=
  match sidOf hdr with
  | some k =>
      match tlookup k s.transportMap with
      | some tid =>
          if orc.handleOk then (s, .delegated tid)
          else (s, if orc.sent then .noReply else .internalJson)
      | none => (s, .badSessionJson)
  | none =>
      if isInit then
        let tid := s.next
        if orc.connectOk then
          let s1 : St :=
            match orc.assignedId with
            | some sid =>
                if sid = "" then { s with next := s.next + 1 }
                else
                  { transportMap := tinsert sid tid s.transportMap
                    transportSid := (tid, sid) :: s.transportSid
                    gens := sid :: s.gens
                    next := s.next + 1 }
            | none => { s with next := s.next + 1 }
          if orc.handleOk then (s1, .delegated tid)
          else (s1, if orc.sent then .noReply else .internalJson)
        else
          ({ s with next := s.next + 1 },
            if orc.sent then .noReply else .internalJson)
      else (s, .badSessionJson)

/-- GET handler registered by `registerMcpServer`. A falsy or unknown header
is answered 400 with the plain-text body; otherwise the handler writes status
200 and the SSE headers on the raw reply and delegates; a rejection of
`handleRequest` only ends the stream, so the outcome does not depend on it. -/
def registerMcpServerGet (s : St) (hdr : Option String) : St × Out :=
  match sidOf hdr with
  | none => (s, .badSessionText)
  | some k =>
      match tlookup k s.transportMap with
      | none => (s, .badSessionText)
      | some tid => (s, .sse tid)

/-- DELETE handler registered by `registerMcpServer`. A falsy or unknown
header is answered 400 with the plain-text body. Otherwise the handler awaits
`transport.close()`; on success it deletes the table entry and replies 200
empty; if `close()` rejects, the `delete` statement is skipped (the rejection
jumps to the catch block), so the entry stays in the table and the reply is
the plain-text 500 when `reply.sent` is false. -/
def registerMcpServerDelete (s : St) (hdr : Option String) (orc : Orc) :
    St × Out :=
  match sidOf hdr with
  | none => (s, .badSessionText)
  | some k =>
      match tlookup k s.transportMap with
      | none => (s, .badSessionText)
      | some _ =>
          if orc.closeOk then
            ({ s with transportMap := terase k s.transportMap }, .okEmpty)
          else (s, if orc.sent then .noReply else .internalText)

/-- The `onclose` callback installed on each transport, fired when the
transport closes outside a DELETE (client disconnect, self-termination): it
reads `transport.sessionId` and deletes `transportMap[sid]` when `sid` is
truthy and the key exists. -/
def transportOnClose (s : St) (tid : Nat) : St :=
  match sidOfTransport tid s.transportSid with
  | none => s
  | some sid =>
      if (tlookup sid s.transportMap).isSome then
        { s with transportMap := terase sid s.transportMap }
      else s

/-- Body of the `onClose` Fastify hook of `registerMcpServer`: iterate the
table in key order; for each entry await `close()` and delete the entry,
ignoring a rejection of `close()` — in which case the `delete` statement is
skipped and the entry survives. Returns the list of keys whose transports were
visited (close attempted) and the resulting table. -/
def onCloseHook (closeOk : String → Bool) :
    List (String × Nat) → List String × List (String × Nat)
  | [] => ([], [])
  | (k, t) :: rest =>
      let r := onCloseHook closeOk rest
      (k :: r.1, if closeOk k then r.2 else (k, t) :: r.2)

/-- Events the registration reacts to: an HTTP request on the MCP path, the
spontaneous closure of a created transport, or the Fastify `onClose` hook. -/
inductive Ev
  | req (v : Verb) (hdr : Option String) (isInit : Bool) (orc : Orc)
  | transportClosed (tid : Nat)
  | serverClosed (closeOk : String → Bool)

/-- One step of the `registerMcpServer` registration: dispatch the event to
the corresponding handler. -/
def stepOut (s : St) : Ev → St × Out
  | .req .post hdr isInit orc => registerMcpServerPost s hdr isInit orc
  | .req .get hdr _ _ => registerMcpServerGet s hdr
  | .req .delete hdr _ orc => registerMcpServerDelete s hdr orc
  | .transportClosed tid => (transportOnClose s tid, .silent)
  | .serverClosed closeOk =>
      ({ s with transportMap := (onCloseHook closeOk s.transportMap).2 },
        .silent)

/-- Run a sequence of events from a state. -/
def run (s : St) : List Ev → St
  | [] => s
  | e :: es => run (stepOut s e).1 es

/-- The identifier-generator uniqueness contract of the spec, checked at one
event: when the event reaches the generator (an initialization POST with a
falsy header whose `server.connect` resolves), the identifier it returns was
never returned before. -/
def freshEv (s : St) : Ev → Bool
  | .req .post hdr true orc =>
      match sidOf hdr with
      | some _ => true
      | none =>
          if orc.connectOk then
            match orc.assignedId with
            | some sid => !(s.gens.contains sid)
            | none => true
          else true
  | _ => true

/-- A trace whose every event respects the generator-uniqueness contract. -/
def traceOk (s : St) : List Ev → Bool
  | [] => true
  | e :: es => freshEv s e && traceOk (stepOut s e).1 es

/-- The stateless-mode contract of the spec, checked at one event: with no
identifier generator configured, a transport never assigns a session
identifier, so every request's oracle carries `assignedId = none`. -/
def statelessEv : Ev → Bool
  | .req _ _ _ orc => orc.assignedId.isNone
  | _ => true

/-! ## Fine-grained raw-reply model of the `registerMcpServer` GET handler -/

/-- Primitive raw-reply effects performed by the GET handler, in program
order. -/
inductive GEff
  /-- `reply.code(status).send(body)` with a plain-text body. -/
  | sendText (status : Nat) (body : String)
  /-- `reply.raw.writeHead(status, headers)`; `sse` records whether the header
  object is the SSE one (`text/event-stream`, `no-cache, no-transform`,
  `keep-alive`, plus the session header). -/
  | writeHead (status : Nat) (sse : Bool)
  /-- `await transport.handleRequest(rawRequest, rawReply)`. -/
  | handleRequest (tid : Nat)
  /-- `reply.raw.end()`. -/
  | endStream
deriving DecidableEq, Repr

/-- Effect trace of the GET handler of `registerMcpServer`. `handleOk` is
whether `transport.handleRequest` resolves and `alreadyEnded` whether
`reply.sent || rawReply.writableEnded` holds afterwards; both the success path
and the catch block perform the same guarded `reply.raw.end()`, so the trace
does not depend on `handleOk`. -/
def registerMcpServerGetEffects (tbl : List (String × Nat))
    (hdr : Option String) (_handleOk alreadyEnded : Bool) : List GEff :=
  match sidOf hdr with
  | none => [.sendText 400 "Invalid or missing session ID"]
  | some k =>
      match tlookup k tbl with
      | none => [.sendText 400 "Invalid or missing session ID"]
      | some tid =>
          .writeHead 200 true :: .handleRequest tid ::
            (if alreadyEnded then [] else [.endStream])

/-- The status a client observes: that of the first status-bearing write. -/
def firstStatus : List GEff → Option Nat
  | [] => none
  | .sendText st _ :: _ => some st
  | .writeHead st _ :: _ => some st
  | _ :: rest => firstStatus rest

/-! ## The second adapter (`registerMcpRoutes` and friends) -/

/-- An injected session-identifier generator, `() -> string`; modelled with a
call counter so distinct calls can return distinct strings. -/
def GenF : Type := Nat → String

/-- Modelled from the spec: `randomUUID` from `node:crypto`, the default
identifier source, an external injectable generator producing values unique
across the registry's lifetime. Only its definedness matters to the claims. -/
def randomUUIDModel : GenF := fun n => "uuid-" ++ toString n

/-- Options object of `registerMcpRoutes`. A TypeScript caller can omit
`sessionIdGenerator` or pass it explicitly as `undefined` (its declared type
is `(() => string) | undefined`); object destructuring treats both the same
way, so both are `none` here. -/
structure FastifyMcpAdapterOptions where
  route : Option String
  sessionIdGenerator : Option GenF
  enableJsonResponse : Option Bool

/-- The binding produced by the destructuring
`const { sessionIdGenerator = () => randomUUID() } = options`: the default
applies whenever the property is `undefined`, which covers both an absent
property and an explicit `sessionIdGenerator: undefined`. -/
def destructuredSessionIdGenerator (o : FastifyMcpAdapterOptions) :
    Option GenF :=
  match o.sessionIdGenerator with
  | some g => some g
  | none => some randomUUIDModel

/-- Shared GET/DELETE helper of `registerMcpRoutes`, over the destructured
`sessionIdGenerator` binding: a 405 envelope when the generator is undefined
(stateless mode), plain-text 400 on a falsy or unknown header, otherwise
delegation to the transport. -/
def handleSessionRequest (gen : Option GenF) (tbl : List (String × Nat))
    (hdr : Option String) : Out :=
  match gen with
  | none => .methodNotAllowed
  | some _ =>
      match sidOf hdr with
      | none => .badSessionText
      | some k =>
          match tlookup k tbl with
          | none => .badSessionText
          | some tid => .delegated tid

/-- POST handler of `registerMcpRoutes`. Same routing as
`registerMcpServerPost`, with two differences: there is no try/catch, so a
rejected `mcpServer.connect` or `transport.handleRequest` escapes to the
framework (`Out.uncaught`); and since the destructured generator is always
defined, the session-init callback is always installed and stores
`transports[sid] = transport` with no truthiness guard on `sid`. -/
def registerMcpRoutesPost (s : St) (hdr : Option String) (isInit : Bool)
    (orc : Orc) : St × Out :=
  match sidOf hdr with
  | some k =>
      match tlookup k s.transportMap with
      | some tid =>
          if orc.handleOk then (s, .delegated tid) else (s, .uncaught)
      | none => (s, .badSessionJson)
  | none =>
      if isInit then
        let tid := s.next
        if orc.connectOk then
          let s1 : St :=
            match orc.assignedId with
            | some sid =>
                { transportMap := tinsert sid tid s.transportMap
                  transportSid := (tid, sid) :: s.transportSid
                  gens := sid :: s.gens
                  next := s.next + 1 }
            | none => { s with next := s.next + 1 }
          if orc.handleOk then (s1, .delegated tid) else (s1, .uncaught)
        else ({ s with next := s.next + 1 }, .uncaught)
      else (s, .badSessionJson)

/-- The `onclose` callback installed by `registerMcpRoutes` on each created
transport (the destructured generator is always defined, so the hook is
always installed): it checks only that `transport.sessionId` is truthy and
then deletes `transports[transport.sessionId]` — deletion of an absent key
being a no-op, unlike the first adapter it performs no existence check. -/
def registerMcpRoutesOnClose (s : St) (tid : Nat) : St :=
  match sidOfTransport tid s.transportSid with
  | none => s
  | some sid =>
      if sid = "" then s
      else { s with transportMap := terase sid s.transportMap }

/-- Events the `registerMcpRoutes` registration reacts to: an HTTP request on
its route, or the closure of a created transport. The adapter installs no
Fastify `onClose` hook, so there is no shutdown event. -/
inductive REv
  | req (v : Verb) (hdr : Option String) (isInit : Bool) (orc : Orc)
  | transportClosed (tid : Nat)

/-- One step of the `registerMcpRoutes` registration for destructured
generator `g`: POST dispatches to its handler, GET and DELETE to the shared
`handleSessionRequest` helper (which never mutates the table — a DELETE
terminates the session inside the transport, whose `onclose` then fires as a
`transportClosed` event), transport closure to the `onclose` callback. -/
def routesStepOut (g : GenF) (s : St) : REv → St × Out
  | .req .post hdr i orc => registerMcpRoutesPost s hdr i orc
  | .req .get hdr _ _ => (s, handleSessionRequest (some g) s.transportMap hdr)
  | .req .delete hdr _ _ =>
      (s, handleSessionRequest (some g) s.transportMap hdr)
  | .transportClosed tid => (registerMcpRoutesOnClose s tid, .silent)

/-- Run a sequence of events through the `registerMcpRoutes` registration. -/
def routesRun (g : GenF) (s : St) : List REv → St
  | [] => s
  | e :: es => routesRun g (routesStepOut g s e).1 es

/-! ## The stateless handler (`createStatelessMcpHandler`) -/

/-- Actions a registered connection-close callback performs. -/
inductive SAct
  | closeTransport (tid : Nat)
  | closeServer
deriving DecidableEq, Repr

/-- Oracle inputs for one run of the stateless handler: whether `getServer()`
returns normally, whether `server.connect` and `transport.handleRequest`
resolve, and whether `reply.sent` is observed in the catch block. -/
structure SOrc where
  getServerOk : Bool
  connectOk : Bool
  handleOk : Bool
  sent : Bool
deriving DecidableEq, Repr

/-- Result of one run of the stateless handler: the transport it constructed
(if any), the callbacks it registered on the raw request's `close` event, and
the reply outcome. -/
structure SRun where
  transportCreated : Option Nat
  connCloseActions : List SAct
  out : Out
deriving DecidableEq, Repr

/-- The handler returned by `createStatelessMcpHandler`, for the request's
transport numbered `tid`. Mirrors the source order: `getServer()` (a throw is
caught and answered with the 500 envelope when `reply.sent` is false), then
the transport construction, then — before `connect` and `handleRequest` —
`request.raw.on("close", ...)` registering the callback that closes the
transport and the server. The callback registration is unconditional from
that point on, so it is in place whether or not the reply is ever sent. -/
def createStatelessMcpHandler (tid : Nat) (orc : SOrc) : SRun :=
  if orc.getServerOk then
    let acts : List SAct := [.closeTransport tid, .closeServer]
    if orc.connectOk then
      if orc.handleOk then
        { transportCreated := some tid, connCloseActions := acts,
          out := .delegated tid }
      else
        { transportCreated := some tid, connCloseActions := acts,
          out := if orc.sent then .noReply else .internalJson }
    else
      { transportCreated := some tid, connCloseActions := acts,
        out := if orc.sent then .noReply else .internalJson }
  else
    { transportCreated := none, connCloseActions := [],
      out := if orc.sent then .noReply else .internalJson }

/-! ## Invariant lemmas -/

theorem run_append (s : St) (es1 es2 : List Ev) :
    run s (es1 ++ es2) = run (run s es1) es2 := by
  induction es1 generalizing s with
  | nil => rfl
  | cons e es ih => simp [run, ih]

theorem traceOk_append (s : St) (es1 es2 : List Ev)
    (h : traceOk s (es1 ++ es2) = true) :
    traceOk s es1 = true ∧ traceOk (run s es1) es2 = true := by
  induction es1 generalizing s with
  | nil => simpa [traceOk, run] using h
  | cons e es ih =>
      simp only [List.cons_append, traceOk, Bool.and_eq_true] at h
      obtain ⟨hf, ht⟩ := h
      obtain ⟨h1, h2⟩ := ih (stepOut s e).1 ht
      exact ⟨by simp [traceOk, hf, h1], by simpa [run] using h2⟩

/-- Shape of the state after the POST handler: unchanged, only the transport
counter advanced, or (exactly when a truthy identifier was assigned on the
initialization path) the table extended by the session-init callback. -/
theorem registerMcpServerPost_state (s : St) (hdr : Option String) (i : Bool)
    (orc : Orc) :
    (registerMcpServerPost s hdr i orc).1 = s ∨
    (registerMcpServerPost s hdr i orc).1 = { s with next := s.next + 1 } ∨
    ∃ sid, sidOf hdr = none ∧ i = true ∧ orc.connectOk = true ∧
      orc.assignedId = some sid ∧ sid ≠ "" ∧
      (registerMcpServerPost s hdr i orc).1 =
        { transportMap := tinsert sid s.next s.transportMap
          transportSid := (s.next, sid) :: s.transportSid
          gens := sid :: s.gens
          next := s.next + 1 } := by
  unfold registerMcpServerPost
  cases hsid : sidOf hdr with
  | some k =>
      cases htl : tlookup k s.transportMap with
      | some tid => cases orc.handleOk <;> cases orc.sent <;> simp [htl]
      | none => simp [htl]
  | none =>
      cases i with
      | false => simp
      | true =>
          cases hc : orc.connectOk with
          | false => cases orc.sent <;> simp
          | true =>
              cases ha : orc.assignedId with
              | none => cases orc.handleOk <;> cases orc.sent <;> simp
              | some sid =>
                  by_cases hs : sid = ""
                  · subst hs
                    cases orc.handleOk <;> cases orc.sent <;> simp
                  · refine Or.inr (Or.inr ⟨sid, rfl, rfl, rfl, rfl, hs, ?_⟩)
                    cases orc.handleOk <;> cases orc.sent <;> simp [hs]

/-- Shape of the state after the DELETE handler: unchanged, or the entry of
the truthy header key erased (exactly when it was present and the close
resolved). -/
theorem registerMcpServerDelete_state (s : St) (hdr : Option String)
    (orc : Orc) :
    (registerMcpServerDelete s hdr orc).1 = s ∨
    ∃ k, sidOf hdr = some k ∧ (tlookup k s.transportMap).isSome = true ∧
      orc.closeOk = true ∧
      (registerMcpServerDelete s hdr orc).1 =
        { s with transportMap := terase k s.transportMap } := by
  unfold registerMcpServerDelete
  cases hsid : sidOf hdr with
  | none => simp
  | some k =>
      cases htl : tlookup k s.transportMap with
      | none => simp [htl]
      | some tid =>
          cases hc : orc.closeOk with
          | false => cases orc.sent <;> simp [htl]
          | true => exact Or.inr ⟨k, rfl, by simp [htl], rfl, by simp [htl]⟩

/-- Shape of the state after the transport `onclose` callback: unchanged or
one table entry erased. -/
theorem transportOnClose_state (s : St) (tid : Nat) :
    transportOnClose s tid = s ∨
    ∃ sid, sidOfTransport tid s.transportSid = some sid ∧
      (tlookup sid s.transportMap).isSome = true ∧
      transportOnClose s tid =
        { s with transportMap := terase sid s.transportMap } := by
  unfold transportOnClose
  cases hs : sidOfTransport tid s.transportSid with
  | none => simp
  | some sid =>
      cases hl : (tlookup sid s.transportMap).isSome with
      | false => simp [hl]
      | true => exact Or.inr ⟨sid, rfl, hl, by simp [hl]⟩

/-- The shutdown loop keeps exactly the entries whose close rejected, in
order. -/
theorem onCloseHook_filter (f : String → Bool) (t : List (String × Nat)) :
    (onCloseHook f t).2 = t.filter (fun p => !(f p.1)) := by
  induction t with
  | nil => rfl
  | cons p rest ih =>
      obtain ⟨k, v⟩ := p
      cases hf : f k <;> simp [onCloseHook, ih, hf, List.filter]

/-- The shutdown loop visits every key, in table order. -/
theorem onCloseHook_visits (f : String → Bool) (t : List (String × Nat)) :
    (onCloseHook f t).1 = tkeys t := by
  induction t with
  | nil => rfl
  | cons p rest ih =>
      obtain ⟨k, v⟩ := p
      cases f k <;> simp [onCloseHook, ih, tkeys]

theorem tlookup_isSome_of_mem_tkeys (k : String) (t : List (String × Nat))
    (h : k ∈ tkeys t) : (tlookup k t).isSome = true := by
  induction t with
  | nil => simp [tkeys] at h
  | cons p rest ih =>
      obtain ⟨k', v'⟩ := p
      by_cases hk : k' = k
      · simp [hk]
      · simp only [tkeys, List.map_cons, List.mem_cons] at h
        rcases h with h | h
        · exact absurd h.symm hk
        · simp [hk, ih (by simpa [tkeys] using h)]

theorem tlookup_sublist_none (k : String) (t t' : List (String × Nat))
    (hsub : t'.Sublist t) (h : tlookup k t = none) : tlookup k t' = none := by
  apply tlookup_eq_none_of_not_mem
  intro hk
  have hmem : k ∈ tkeys t := (hsub.map Prod.fst).subset hk
  have hsome := tlookup_isSome_of_mem_tkeys k t hmem
  rw [h] at hsome
  simp at hsome

theorem registerMcpServerGet_state (s : St) (hdr : Option String) :
    (registerMcpServerGet s hdr).1 = s := by
  unfold registerMcpServerGet
  cases hsid : sidOf hdr with
  | none => rfl
  | some k =>
      cases htl : tlookup k s.transportMap with
      | none => simp [htl]
      | some tid => simp [htl]

/-- Outcome of a POST bearing a truthy identifier that is not a table key:
the 400 envelope, with the state untouched. -/
theorem registerMcpServerPost_unknown (s : St) (hdr : Option String)
    (k : String) (i : Bool) (orc : Orc) (hsid : sidOf hdr = some k)
    (hmiss : tlookup k s.transportMap = none) :
    registerMcpServerPost s hdr i orc = (s, .badSessionJson) := by
  unfold registerMcpServerPost
  rw [hsid]
  simp [hmiss]

/-- Outcome of a GET bearing a truthy identifier that is not a table key. -/
theorem registerMcpServerGet_unknown (s : St) (hdr : Option String)
    (k : String) (hsid : sidOf hdr = some k)
    (hmiss : tlookup k s.transportMap = none) :
    registerMcpServerGet s hdr = (s, .badSessionText) := by
  unfold registerMcpServerGet
  rw [hsid]
  simp [hmiss]

/-- Outcome of a DELETE bearing a truthy identifier that is not a table key. -/
theorem registerMcpServerDelete_unknown (s : St) (hdr : Option String)
    (k : String) (orc : Orc) (hsid : sidOf hdr = some k)
    (hmiss : tlookup k s.transportMap = none) :
    registerMcpServerDelete s hdr orc = (s, .badSessionText) := by
  unfold registerMcpServerDelete
  rw [hsid]
  simp [hmiss]

/-- A session identifier the generator produced whose table entry is gone. -/
def SessionDead (S : String) (s : St) : Prop :=
  S ∈ s.gens ∧ tlookup S s.transportMap = none

/-- The generator list only grows at each step. -/
theorem gens_mono (s : St) (e : Ev) (x : String) (h : x ∈ s.gens) :
    x ∈ (stepOut s e).1.gens := by
  cases e with
  | req v hdr i orc =>
      cases v with
      | post =>
          rcases registerMcpServerPost_state s hdr i orc with h1 | h1 | h1
          · simpa [stepOut, h1]
          · simpa [stepOut, h1]
          · obtain ⟨sid, _, _, _, _, _, heq⟩ := h1
            simp only [stepOut, heq]
            exact List.mem_cons_of_mem _ h
      | get => simpa [stepOut, registerMcpServerGet_state]
      | delete =>
          rcases registerMcpServerDelete_state s hdr orc with h1 | h1
          · simpa [stepOut, h1]
          · obtain ⟨k, _, _, _, heq⟩ := h1
            simpa [stepOut, heq]
  | transportClosed tid =>
      rcases transportOnClose_state s tid with h1 | h1
      · simpa [stepOut, h1]
      · obtain ⟨sid, _, _, heq⟩ := h1
        simpa [stepOut, heq]
  | serverClosed f => simpa [stepOut]

/-- Once a generated identifier's entry is gone from the table, no event
respecting the generator-uniqueness contract brings it back. -/
theorem sessionDead_step (S : String) (s : St) (e : Ev)
    (hf : freshEv s e = true) (h : SessionDead S s) :
    SessionDead S (stepOut s e).1 := by
  obtain ⟨hg, hn⟩ := h
  refine ⟨gens_mono s e S hg, ?_⟩
  cases e with
  | req v hdr i orc =>
      cases v with
      | post =>
          rcases registerMcpServerPost_state s hdr i orc with h1 | h1 | h1
          · simpa [stepOut, h1]
          · simpa [stepOut, h1]
          · obtain ⟨sid, hsid, hi, hc, ha, hs, heq⟩ := h1
            subst hi
            have hfresh : sid ∉ s.gens := by
              simp [freshEv, hsid, hc, ha] at hf
              exact hf
            have hne : sid ≠ S := fun hss => hfresh (hss ▸ hg)
            simp only [stepOut, heq]
            exact tlookup_tinsert_of_none S sid s.next s.transportMap hne hn
      | get => simpa [stepOut, registerMcpServerGet_state]
      | delete =>
          rcases registerMcpServerDelete_state s hdr orc with h1 | h1
          · simpa [stepOut, h1]
          · obtain ⟨k, _, _, _, heq⟩ := h1
            simp only [stepOut, heq]
            exact tlookup_terase_of_none S k s.transportMap hn
  | transportClosed tid =>
      rcases transportOnClose_state s tid with h1 | h1
      · simpa [stepOut, h1]
      · obtain ⟨sid, _, _, heq⟩ := h1
        simp only [stepOut, heq]
        exact tlookup_terase_of_none S sid s.transportMap hn
  | serverClosed f =>
      simp only [stepOut]
      refine tlookup_sublist_none S s.transportMap _ ?_ hn
      rw [onCloseHook_filter]
      exact List.filter_sublist _

theorem sessionDead_run (S : String) (s : St) (es : List Ev)
    (htr : traceOk s es = true) (h : SessionDead S s) :
    SessionDead S (run s es) := by
  induction es generalizing s with
  | nil => simpa [run]
  | cons e rest ih =>
      simp only [traceOk, Bool.and_eq_true] at htr
      exact ih (stepOut s e).1 htr.2 (sessionDead_step S s e htr.1 h)

/-- Every table key was returned by the generator at some initialization. -/
def KeysGen (s : St) : Prop :=
  ∀ k, (tlookup k s.transportMap).isSome = true → k ∈ s.gens

theorem tlookup_sublist_isSome (k : String) (t t' : List (String × Nat))
    (hsub : t'.Sublist t) (h : (tlookup k t').isSome = true) :
    (tlookup k t).isSome = true :=
  tlookup_isSome_of_mem_tkeys k t
    ((hsub.map Prod.fst).subset (mem_tkeys_of_tlookup k t' h))

theorem keysGen_step (s : St) (e : Ev) (h : KeysGen s) :
    KeysGen (stepOut s e).1 := by
  cases e with
  | req v hdr i orc =>
      cases v with
      | post =>
          rcases registerMcpServerPost_state s hdr i orc with h1 | h1 | h1
          · simpa [stepOut, h1]
          · intro k hk
            simp only [stepOut, h1] at hk ⊢
            exact h k hk
          · obtain ⟨sid, hsid, hi, hc, ha, hs, heq⟩ := h1
            intro k hk
            simp only [stepOut, heq] at hk ⊢
            by_cases hks : k = sid
            · exact hks ▸ List.mem_cons_self _ _
            · have : sid ≠ k := fun hss => hks hss.symm
              rw [tlookup_tinsert_ne k sid s.next s.transportMap this] at hk
              exact List.mem_cons_of_mem _ (h k hk)
      | get => simpa [stepOut, registerMcpServerGet_state]
      | delete =>
          rcases registerMcpServerDelete_state s hdr orc with h1 | h1
          · simpa [stepOut, h1]
          · obtain ⟨k0, _, _, _, heq⟩ := h1
            intro k hk
            simp only [stepOut, heq] at hk ⊢
            exact h k (tlookup_sublist_isSome k _ _ (terase_sublist k0 _) hk)
  | transportClosed tid =>
      rcases transportOnClose_state s tid with h1 | h1
      · simpa [stepOut, h1]
      · obtain ⟨sid, _, _, heq⟩ := h1
        intro k hk
        simp only [stepOut, heq] at hk ⊢
        exact h k (tlookup_sublist_isSome k _ _ (terase_sublist sid _) hk)
  | serverClosed f =>
      intro k hk
      simp only [stepOut] at hk ⊢
      refine h k (tlookup_sublist_isSome k _ _ ?_ hk)
      rw [onCloseHook_filter]
      exact List.filter_sublist _

theorem keysGen_run (s : St) (es : List Ev) (h : KeysGen s) :
    KeysGen (run s es) := by
  induction es generalizing s with
  | nil => simpa [run]
  | cons e rest ih => exact ih (stepOut s e).1 (keysGen_step s e h)

theorem keysGen_st0 : KeysGen st0 := by
  intro k hk
  simp [st0, tlookup] at hk

/-- The table keys stay distinct: at most one transport per identifier. -/
def KeysNodup (s : St) : Prop := (tkeys s.transportMap).Nodup

theorem keysNodup_step (s : St) (e : Ev) (h : KeysNodup s) :
    KeysNodup (stepOut s e).1 := by
  cases e with
  | req v hdr i orc =>
      cases v with
      | post =>
          rcases registerMcpServerPost_state s hdr i orc with h1 | h1 | h1
          · simpa [stepOut, h1]
          · simpa [stepOut, h1]
          · obtain ⟨sid, _, _, _, _, _, heq⟩ := h1
            simp only [KeysNodup, stepOut, heq]
            exact tkeys_tinsert_nodup sid s.next s.transportMap h
      | get => simpa [stepOut, registerMcpServerGet_state]
      | delete =>
          rcases registerMcpServerDelete_state s hdr orc with h1 | h1
          · simpa [stepOut, h1]
          · obtain ⟨k0, _, _, _, heq⟩ := h1
            simp only [KeysNodup, stepOut, heq]
            exact tkeys_terase_nodup k0 s.transportMap h
  | transportClosed tid =>
      rcases transportOnClose_state s tid with h1 | h1
      · simpa [stepOut, h1]
      · obtain ⟨sid, _, _, heq⟩ := h1
        simp only [KeysNodup, stepOut, heq]
        exact tkeys_terase_nodup sid s.transportMap h
  | serverClosed f =>
      simp only [KeysNodup, stepOut]
      rw [onCloseHook_filter]
      exact ((List.filter_sublist _).map Prod.fst).nodup h

theorem keysNodup_run (s : St) (es : List Ev) (h : KeysNodup s) :
    KeysNodup (run s es) := by
  induction es generalizing s with
  | nil => simpa [run]
  | cons e rest ih => exact ih (stepOut s e).1 (keysNodup_step s e h)

/-- Under the stateless-mode contract, no step ever populates the table. -/
theorem stateless_step_empty (s : St) (e : Ev) (hs : s.transportMap = [])
    (he : statelessEv e = true) : (stepOut s e).1.transportMap = [] := by
  cases e with
  | req v hdr i orc =>
      have hnone : orc.assignedId = none := by
        simpa [statelessEv, Option.isNone_iff_eq_none] using he
      cases v with
      | post =>
          rcases registerMcpServerPost_state s hdr i orc with h1 | h1 | h1
          · simpa [stepOut, h1]
          · simpa [stepOut, h1]
          · obtain ⟨sid, _, _, _, ha, _, _⟩ := h1
            rw [hnone] at ha
            exact absurd ha (by simp)
      | get => simpa [stepOut, registerMcpServerGet_state]
      | delete =>
          rcases registerMcpServerDelete_state s hdr orc with h1 | h1
          · simpa [stepOut, h1]
          · obtain ⟨k0, _, _, _, heq⟩ := h1
            simp [stepOut, heq, hs, terase]
  | transportClosed tid =>
      rcases transportOnClose_state s tid with h1 | h1
      · simpa [stepOut, h1]
      · obtain ⟨sid, _, _, heq⟩ := h1
        simp [stepOut, heq, hs, terase]
  | serverClosed f => simp [stepOut, onCloseHook_filter, hs]

theorem stateless_run_empty (s : St) (es : List Ev) (hs : s.transportMap = [])
    (he : es.all statelessEv = true) : (run s es).transportMap = [] := by
  induction es generalizing s with
  | nil => simpa [run]
  | cons e rest ih =>
      simp only [List.all_cons, Bool.and_eq_true] at he
      exact ih (stepOut s e).1 (stateless_step_empty s e hs he.1) he.2

theorem tlookup_terase_self (k : String) (t : List (String × Nat))
    (h : (tkeys t).Nodup) : tlookup k (terase k t) = none := by
  induction t with
  | nil => simp [terase]
  | cons p rest ih =>
      obtain ⟨k', v'⟩ := p
      simp only [tkeys, List.map_cons, List.nodup_cons] at h
      by_cases hk : k' = k
      · subst hk
        simp only [terase, if_pos rfl]
        exact tlookup_eq_none_of_not_mem k' rest h.1
      · simp [terase, hk, ih h.2]

/-- A DELETE acknowledged with `okEmpty` found the session in the table,
closed it successfully, and removed the entry. -/
theorem registerMcpServerDelete_ok (s : St) (hdr : Option String) (S : String)
    (orc : Orc) (hS : sidOf hdr = some S)
    (h : (registerMcpServerDelete s hdr orc).2 = .okEmpty) :
    (tlookup S s.transportMap).isSome = true ∧
    (registerMcpServerDelete s hdr orc).1 =
      { s with transportMap := terase S s.transportMap } := by
  unfold registerMcpServerDelete at h ⊢
  rw [hS] at h ⊢
  cases htl : tlookup S s.transportMap with
  | none => simp [htl] at h
  | some tid =>
      cases hc : orc.closeOk with
      | false => cases hsent : orc.sent <;> simp [htl, hc, hsent] at h
      | true => simp [htl, hc]

/-! ## Claim C1 -/

/-- C1: for every session identifier S, once a DELETE bearing S has been
acknowledged with status 200 by `registerMcpServer`, every subsequent POST,
GET or DELETE request bearing S is answered with status 400 (the
no-valid-session failure), and the registry never routes such a request to a
transport again — under the spec's contract that the injected identifier
generator returns values unique across the registry's lifetime (`traceOk`). -/
theorem c1_delete_acked_seals_session (es1 es2 : List Ev)
    (hdr hdr2 : Option String) (S : String) (orcD : Orc) (v2 : Verb)
    (i2 : Bool) (orc2 : Orc)
    (htr : traceOk st0 (es1 ++ Ev.req .delete hdr false orcD :: es2) = true)
    (hS : sidOf hdr = some S)
    (hack : (stepOut (run st0 es1) (Ev.req .delete hdr false orcD)).2 =
      .okEmpty)
    (h2 : sidOf hdr2 = some S) :
    statusOf (stepOut (run st0 (es1 ++ Ev.req .delete hdr false orcD :: es2))
        (Ev.req v2 hdr2 i2 orc2)).2 = some 400 ∧
    routedTransport
        (stepOut (run st0 (es1 ++ Ev.req .delete hdr false orcD :: es2))
          (Ev.req v2 hdr2 i2 orc2)).2 = none := by
  obtain ⟨htr1, htr2⟩ :=
    traceOk_append st0 es1 (Ev.req .delete hdr false orcD :: es2) htr
  simp only [traceOk, Bool.and_eq_true] at htr2
  obtain ⟨hfD, htres2⟩ := htr2
  have hstep : stepOut (run st0 es1) (Ev.req .delete hdr false orcD) =
      registerMcpServerDelete (run st0 es1) hdr orcD := rfl
  rw [hstep] at hack
  have hok := registerMcpServerDelete_ok (run st0 es1) hdr S orcD hS hack
  have hkg : KeysGen (run st0 es1) := keysGen_run st0 es1 keysGen_st0
  have hSg : S ∈ (run st0 es1).gens := hkg S hok.1
  have hnd : KeysNodup (run st0 es1) :=
    keysNodup_run st0 es1 (by simp [KeysNodup, st0, tkeys])
  have hdead : SessionDead S
      (stepOut (run st0 es1) (Ev.req .delete hdr false orcD)).1 := by
    rw [hstep, hok.2]
    exact ⟨hSg, tlookup_terase_self S (run st0 es1).transportMap hnd⟩
  have hdead2 : SessionDead S
      (run st0 (es1 ++ Ev.req .delete hdr false orcD :: es2)) := by
    rw [run_append]
    show SessionDead S (run (run st0 es1) (Ev.req .delete hdr false orcD :: es2))
    simp only [run]
    exact sessionDead_run S _ es2 htres2 hdead
  obtain ⟨hSg2, hSnone⟩ := hdead2
  cases v2 with
  | post =>
      have ho : (stepOut (run st0 (es1 ++ Ev.req .delete hdr false orcD :: es2))
          (Ev.req .post hdr2 i2 orc2)).2 = .badSessionJson := by
        show (registerMcpServerPost _ hdr2 i2 orc2).2 = _
        rw [registerMcpServerPost_unknown _ hdr2 S i2 orc2 h2 hSnone]
      simp [ho, statusOf, routedTransport]
  | get =>
      have ho : (stepOut (run st0 (es1 ++ Ev.req .delete hdr false orcD :: es2))
          (Ev.req .get hdr2 i2 orc2)).2 = .badSessionText := by
        show (registerMcpServerGet _ hdr2).2 = _
        rw [registerMcpServerGet_unknown _ hdr2 S h2 hSnone]
      simp [ho, statusOf, routedTransport]
  | delete =>
      have ho : (stepOut (run st0 (es1 ++ Ev.req .delete hdr false orcD :: es2))
          (Ev.req .delete hdr2 i2 orc2)).2 = .badSessionText := by
        show (registerMcpServerDelete _ hdr2 orc2).2 = _
        rw [registerMcpServerDelete_unknown _ hdr2 S orc2 h2 hSnone]
      simp [ho, statusOf, routedTransport]

/-- Witness for C1: a concrete trace — initialization POST assigned session
"A", DELETE bearing "A" acknowledged 200 — after which a POST bearing "A" is
answered 400 and routed to no transport. -/
theorem c1_witness :
    statusOf (stepOut (run st0
        ([Ev.req .post none true ⟨true, some "A", true, false, true⟩] ++
          Ev.req .delete (some "A") false ⟨true, none, true, false, true⟩ :: []))
        (Ev.req .post (some "A") false ⟨true, none, true, false, true⟩)).2 =
      some 400 ∧
    routedTransport (stepOut (run st0
        ([Ev.req .post none true ⟨true, some "A", true, false, true⟩] ++
          Ev.req .delete (some "A") false ⟨true, none, true, false, true⟩ :: []))
        (Ev.req .post (some "A") false ⟨true, none, true, false, true⟩)).2 =
      none :=
  c1_delete_acked_seals_session
    [Ev.req .post none true ⟨true, some "A", true, false, true⟩] []
    (some "A") (some "A") "A" ⟨true, none, true, false, true⟩ .post false
    ⟨true, none, true, false, true⟩ (by decide) (by decide) (by decide)
    (by decide)

theorem registerMcpServerGet_falsy (s : St) (hdr : Option String)
    (h : sidOf hdr = none) : registerMcpServerGet s hdr = (s, .badSessionText) := by
  unfold registerMcpServerGet
  rw [h]

theorem registerMcpServerDelete_falsy (s : St) (hdr : Option String) (orc : Orc)
    (h : sidOf hdr = none) :
    registerMcpServerDelete s hdr orc = (s, .badSessionText) := by
  unfold registerMcpServerDelete
  rw [h]

theorem registerMcpServerPost_falsyNonInit (s : St) (hdr : Option String)
    (orc : Orc) (h : sidOf hdr = none) :
    registerMcpServerPost s hdr false orc = (s, .badSessionJson) := by
  unfold registerMcpServerPost
  rw [h]
  simp

theorem registerMcpRoutesPost_unknown (s : St) (hdr : Option String)
    (k : String) (i : Bool) (orc : Orc) (hsid : sidOf hdr = some k)
    (hmiss : tlookup k s.transportMap = none) :
    registerMcpRoutesPost s hdr i orc = (s, .badSessionJson) := by
  unfold registerMcpRoutesPost
  rw [hsid]
  simp [hmiss]

theorem registerMcpRoutesPost_falsyNonInit (s : St) (hdr : Option String)
    (orc : Orc) (h : sidOf hdr = none) :
    registerMcpRoutesPost s hdr false orc = (s, .badSessionJson) := by
  unfold registerMcpRoutesPost
  rw [h]
  simp

/-! ## Claim C2 -/

/-- C2 counterexample: a POST whose `mcp-session-id` header is present with
the empty-string value — present, and not a key of the (empty) table — but
whose body is an initialization request is NOT answered 400: JavaScript
treats the empty header value as falsy, so the handler takes the
initialization path, creates transport 0, registers session "S", and
delegates the reply to the transport. -/
theorem c2_counterexample :
    (some "" : Option String).isSome = true ∧
    tlookup "" st0.transportMap = none ∧
    (registerMcpServerPost st0 (some "") true
        ⟨true, some "S", true, false, true⟩).2 = .delegated 0 ∧
    (registerMcpServerPost st0 (some "") true
        ⟨true, some "S", true, false, true⟩).1.transportMap = [("S", 0)] ∧
    statusOf (registerMcpServerPost st0 (some "") true
        ⟨true, some "S", true, false, true⟩).2 ≠ some 400 := by decide

/-- C2 amended: for every POST whose session-id header is present with a
truthy (non-empty) value that is not a key of the table, and for every POST
whose header is falsy and whose body is not an initialization message, both
adapters reply with the 400 envelope (code -32000), leave the state untouched
(in particular create no transport), and never reply 500. -/
theorem c2_amended_post_envelope :
    (∀ (s : St) (hdr : Option String) (k : String) (i : Bool) (orc : Orc),
      sidOf hdr = some k → tlookup k s.transportMap = none →
      registerMcpServerPost s hdr i orc = (s, .badSessionJson)) ∧
    (∀ (s : St) (hdr : Option String) (orc : Orc),
      sidOf hdr = none →
      registerMcpServerPost s hdr false orc = (s, .badSessionJson)) ∧
    (∀ (s : St) (hdr : Option String) (k : String) (i : Bool) (orc : Orc),
      sidOf hdr = some k → tlookup k s.transportMap = none →
      registerMcpRoutesPost s hdr i orc = (s, .badSessionJson)) ∧
    (∀ (s : St) (hdr : Option String) (orc : Orc),
      sidOf hdr = none →
      registerMcpRoutesPost s hdr false orc = (s, .badSessionJson)) ∧
    statusOf .badSessionJson = some 400 ∧
    bodyOf .badSessionJson = .envelope (-32000) :=
  ⟨fun s hdr k i orc hsid hmiss =>
      registerMcpServerPost_unknown s hdr k i orc hsid hmiss,
    fun s hdr orc h => registerMcpServerPost_falsyNonInit s hdr orc h,
    fun s hdr k i orc hsid hmiss =>
      registerMcpRoutesPost_unknown s hdr k i orc hsid hmiss,
    fun s hdr orc h => registerMcpRoutesPost_falsyNonInit s hdr orc h,
    rfl, rfl⟩

/-- Witness for C2 amended: a POST bearing the unknown truthy identifier "x"
on the empty table is answered with the 400 envelope and changes nothing. -/
theorem c2_witness :
    registerMcpServerPost st0 (some "x") false ⟨true, none, true, false, true⟩ =
      (st0, .badSessionJson) :=
  c2_amended_post_envelope.1 st0 (some "x") "x" false
    ⟨true, none, true, false, true⟩ (by decide) (by decide)

/-! ## Claim C3 -/

/-- C3 counterexample: in stateless mode the table is empty (as at `st0`,
the state right after registration), and a GET bearing session identifier
"x" is answered by `registerMcpServer` with the plain-text 400, not with
status 405 as the claim states. -/
theorem c3_counterexample :
    (stepOut st0 (Ev.req .get (some "x") false
        ⟨true, none, true, false, true⟩)).2 = .badSessionText ∧
    statusOf .badSessionText = some 400 ∧
    statusOf .badSessionText ≠ some 405 := by decide

/-- C3 amended: when no session-identifier generator is configured in
`registerMcpServer`, transports never assign identifiers (`statelessEv`), the
table stays empty forever, and every GET and DELETE — whatever the header —
is answered with status 400 (plain text), never 405; the 405 branch exists
only in `registerMcpRoutes`, where it is unreachable because the destructured
generator is always defined. -/
theorem c3_amended_stateless_400 :
    (∀ (es : List Ev) (hdr : Option String) (i : Bool) (orc : Orc) (v : Verb),
      es.all statelessEv = true → v = .get ∨ v = .delete →
      (run st0 es).transportMap = [] ∧
      (stepOut (run st0 es) (Ev.req v hdr i orc)).2 = .badSessionText ∧
      statusOf .badSessionText = some 400) ∧
    (∀ (g : GenF) (tbl : List (String × Nat)) (hdr : Option String),
      handleSessionRequest (some g) tbl hdr = .methodNotAllowed → False) := by
  constructor
  · intro es hdr i orc v hall hv
    have hempty : (run st0 es).transportMap = [] :=
      stateless_run_empty st0 es rfl hall
    refine ⟨hempty, ?_, rfl⟩
    have hmiss : ∀ k, tlookup k (run st0 es).transportMap = none := by
      intro k
      rw [hempty]
      rfl
    rcases hv with hv | hv <;> subst hv
    · show (registerMcpServerGet (run st0 es) hdr).2 = _
      cases hsid : sidOf hdr with
      | none => rw [registerMcpServerGet_falsy _ hdr hsid]
      | some k => rw [registerMcpServerGet_unknown _ hdr k hsid (hmiss k)]
    · show (registerMcpServerDelete (run st0 es) hdr orc).2 = _
      cases hsid : sidOf hdr with
      | none => rw [registerMcpServerDelete_falsy _ hdr orc hsid]
      | some k =>
          rw [registerMcpServerDelete_unknown _ hdr k orc hsid (hmiss k)]
  · intro g tbl hdr h
    unfold handleSessionRequest at h
    cases hsid : sidOf hdr with
    | none => simp [hsid] at h
    | some k =>
        cases htl : tlookup k tbl with
        | none => simp [hsid, htl] at h
        | some tid => simp [hsid, htl] at h

/-- Witness for C3 amended: after one stateless initialization POST, a GET
bearing "x" is answered with the plain-text 400. -/
theorem c3_witness :
    (run st0 [Ev.req .post none true ⟨true, none, true, false, true⟩]).transportMap
        = [] ∧
    (stepOut (run st0 [Ev.req .post none true ⟨true, none, true, false, true⟩])
        (Ev.req .get (some "x") false ⟨true, none, true, false, true⟩)).2 =
      .badSessionText ∧
    statusOf .badSessionText = some 400 :=
  c3_amended_stateless_400.1
    [Ev.req .post none true ⟨true, none, true, false, true⟩]
    (some "x") false ⟨true, none, true, false, true⟩ .get (by decide)
    (Or.inl rfl)

/-! ## Claim C4 -/

/-- C4 counterexample: a registry holding the single session "s" whose
transport's `close()` rejects during shutdown. The `delete` statement inside
the `try` block is skipped by the rejection, so after the `onClose` hook the
table still contains the entry — it is not empty, contradicting the claim
that the table is empty afterwards even if some closes failed. -/
theorem c4_counterexample :
    (run st0 [Ev.req .post none true ⟨true, some "s", true, false, true⟩,
        Ev.serverClosed (fun _ => false)]).transportMap = [("s", 0)] ∧
    [("s", 0)] ≠ ([] : List (String × Nat)) := by decide

/-- C4 amended: registry shutdown visits every entry of the table in order
and attempts to close each transport; a failing close does not prevent the
remaining closures; entries whose close succeeded are removed, and exactly
the entries whose close failed remain — so the table is empty afterwards
precisely when every close succeeded (and in particular when all succeed). -/
theorem c4_amended_shutdown_filter (f : String → Bool)
    (t : List (String × Nat)) (s : St) :
    (onCloseHook f t).1 = tkeys t ∧
    (onCloseHook f t).2 = t.filter (fun p => !(f p.1)) ∧
    ((∀ p ∈ t, f p.1 = true) → (onCloseHook f t).2 = []) ∧
    (stepOut s (Ev.serverClosed f)).1.transportMap =
      s.transportMap.filter (fun p => !(f p.1)) := by
  refine ⟨onCloseHook_visits f t, onCloseHook_filter f t, ?_, ?_⟩
  · intro hall
    rw [onCloseHook_filter]
    rw [List.filter_eq_nil_iff]
    intro p hp
    simp [hall p hp]
  · show (onCloseHook f s.transportMap).2 = _
    exact onCloseHook_filter f s.transportMap

/-- Witness for C4 amended: when every close succeeds, the table of the
one-session registry is empty after shutdown. -/
theorem c4_witness :
    (onCloseHook (fun _ => true) [("a", 0)]).2 = [] :=
  (c4_amended_shutdown_filter (fun _ => true) [("a", 0)] st0).2.2.1 (by decide)

/-! ## Claim C5 -/

/-- C5 counterexample: a DELETE bearing the live session "s" whose
`transport.close()` rejects is answered by `registerMcpServer` with status
500 and the plain-text body "Error processing session termination" — a
non-2xx protocol-level failure that is not the buffered JSON envelope. -/
theorem c5_counterexample :
    (stepOut (run st0 [Ev.req .post none true ⟨true, some "s", true, false, true⟩])
        (Ev.req .delete (some "s") false ⟨true, none, true, false, false⟩)).2 =
      .internalText ∧
    statusOf .internalText = some 500 ∧
    bodyOf .internalText = .text "Error processing session termination" ∧
    bodyOf .internalText ≠ .envelope (-32603) ∧
    bodyOf .internalText ≠ .envelope (-32000) := by decide

/-- C5 amended: in `registerMcpServer`, only the POST handler delivers its
failures as the buffered JSON envelope (-32000 for a bad or missing session,
-32603 for an internal fault); the GET handler's failures are the plain-text
400 body "Invalid or missing session ID", and the DELETE handler's failures
are that plain-text 400 or the plain-text 500 "Error processing session
termination". No outcome carries any other body, so no failure ever exposes
a raw stack trace. -/
theorem c5_amended_failure_bodies :
    (∀ (s : St) (hdr : Option String) (i : Bool) (orc : Orc),
      (registerMcpServerPost s hdr i orc).2 = .badSessionJson ∨
      (registerMcpServerPost s hdr i orc).2 = .internalJson ∨
      (∃ t, (registerMcpServerPost s hdr i orc).2 = .delegated t) ∨
      (registerMcpServerPost s hdr i orc).2 = .noReply) ∧
    (∀ (s : St) (hdr : Option String),
      (registerMcpServerGet s hdr).2 = .badSessionText ∨
      ∃ t, (registerMcpServerGet s hdr).2 = .sse t) ∧
    (∀ (s : St) (hdr : Option String) (orc : Orc),
      (registerMcpServerDelete s hdr orc).2 = .badSessionText ∨
      (registerMcpServerDelete s hdr orc).2 = .internalText ∨
      (registerMcpServerDelete s hdr orc).2 = .noReply ∨
      (registerMcpServerDelete s hdr orc).2 = .okEmpty) ∧
    bodyOf .badSessionJson = .envelope (-32000) ∧
    bodyOf .internalJson = .envelope (-32603) ∧
    bodyOf .badSessionText = .text "Invalid or missing session ID" ∧
    bodyOf .internalText = .text "Error processing session termination" := by
  refine ⟨?_, ?_, ?_, rfl, rfl, rfl, rfl⟩
  · intro s hdr i orc
    unfold registerMcpServerPost
    cases hsid : sidOf hdr with
    | some k =>
        cases htl : tlookup k s.transportMap with
        | some tid => cases orc.handleOk <;> cases orc.sent <;> simp [htl]
        | none => simp [htl]
    | none =>
        cases i with
        | false => simp
        | true =>
            cases hc : orc.connectOk with
            | false => cases orc.sent <;> simp
            | true =>
                cases ha : orc.assignedId with
                | none => cases orc.handleOk <;> cases orc.sent <;> simp
                | some sid =>
                    by_cases hs : sid = "" <;>
                      cases orc.handleOk <;> cases orc.sent <;> simp [hs]
  · intro s hdr
    unfold registerMcpServerGet
    cases hsid : sidOf hdr with
    | some k =>
        cases htl : tlookup k s.transportMap with
        | some tid => simp [htl]
        | none => simp [htl]
    | none => simp
  · intro s hdr orc
    unfold registerMcpServerDelete
    cases hsid : sidOf hdr with
    | some k =>
        cases htl : tlookup k s.transportMap with
        | some tid => cases orc.closeOk <;> cases orc.sent <;> simp [htl]
        | none => simp [htl]
    | none => simp

theorem tlookup_filter_key (k : String) (f : String → Bool)
    (t : List (String × Nat)) :
    tlookup k (t.filter (fun p => !(f p.1))) =
      if f k = true then none else tlookup k t := by
  induction t with
  | nil => simp [List.filter]
  | cons p rest ih =>
      obtain ⟨k', v'⟩ := p
      by_cases hk : k' = k
      · subst hk
        cases hf : f k' <;> simp [List.filter, hf, ih]
      · cases hf : f k' <;> simp [List.filter, hf, hk, ih]

/-- Shape of the state after the `registerMcpRoutes` POST handler:
unchanged, only the transport counter advanced, or (exactly when an
identifier was assigned on the initialization path) the table extended by
the unguarded session-init callback — unlike the first adapter, an
empty-string identifier is inserted too. -/
theorem registerMcpRoutesPost_state (s : St) (hdr : Option String) (i : Bool)
    (orc : Orc) :
    (registerMcpRoutesPost s hdr i orc).1 = s ∨
    (registerMcpRoutesPost s hdr i orc).1 = { s with next := s.next + 1 } ∨
    ∃ sid, sidOf hdr = none ∧ i = true ∧ orc.connectOk = true ∧
      orc.assignedId = some sid ∧
      (registerMcpRoutesPost s hdr i orc).1 =
        { transportMap := tinsert sid s.next s.transportMap
          transportSid := (s.next, sid) :: s.transportSid
          gens := sid :: s.gens
          next := s.next + 1 } := by
  unfold registerMcpRoutesPost
  cases hsid : sidOf hdr with
  | some k =>
      cases htl : tlookup k s.transportMap with
      | some tid => cases orc.handleOk <;> simp [htl]
      | none => simp [htl]
  | none =>
      cases i with
      | false => simp
      | true =>
          cases hc : orc.connectOk with
          | false => simp
          | true =>
              cases ha : orc.assignedId with
              | none => cases orc.handleOk <;> simp
              | some sid =>
                  refine Or.inr (Or.inr ⟨sid, rfl, rfl, rfl, rfl, ?_⟩)
                  cases orc.handleOk <;> simp

/-- Shape of the state after the `registerMcpRoutes` `onclose` callback:
unchanged, or (exactly when the transport's identifier is truthy) that
identifier's entry erased. -/
theorem registerMcpRoutesOnClose_state (s : St) (tid : Nat) :
    registerMcpRoutesOnClose s tid = s ∨
    ∃ sid, sidOfTransport tid s.transportSid = some sid ∧ sid ≠ "" ∧
      registerMcpRoutesOnClose s tid =
        { s with transportMap := terase sid s.transportMap } := by
  unfold registerMcpRoutesOnClose
  cases hs : sidOfTransport tid s.transportSid with
  | none => simp
  | some sid =>
      by_cases he : sid = ""
      · simp [he]
      · exact Or.inr ⟨sid, rfl, he, by simp [he]⟩

theorem routesKeysNodup_step (g : GenF) (s : St) (e : REv)
    (h : KeysNodup s) : KeysNodup (routesStepOut g s e).1 := by
  cases e with
  | req v hdr i orc =>
      cases v with
      | post =>
          rcases registerMcpRoutesPost_state s hdr i orc with h1 | h1 | h1
          · simpa [routesStepOut, h1]
          · simpa [routesStepOut, h1]
          · obtain ⟨sid, _, _, _, _, heq⟩ := h1
            simp only [KeysNodup, routesStepOut, heq]
            exact tkeys_tinsert_nodup sid s.next s.transportMap h
      | get => simpa [routesStepOut]
      | delete => simpa [routesStepOut]
  | transportClosed tid =>
      rcases registerMcpRoutesOnClose_state s tid with h1 | h1
      · simpa [routesStepOut, h1]
      · obtain ⟨sid, _, _, heq⟩ := h1
        simp only [KeysNodup, routesStepOut, heq]
        exact tkeys_terase_nodup sid s.transportMap h

theorem routesKeysNodup_run (g : GenF) (s : St) (es : List REv)
    (h : KeysNodup s) : KeysNodup (routesRun g s es) := by
  induction es generalizing s with
  | nil => simpa [routesRun]
  | cons e rest ih =>
      exact ih (routesStepOut g s e).1 (routesKeysNodup_step g s e h)

/-! ## Claim C6 -/

/-- C6: in both adapters, on a table with distinct keys a binding appears
only through the session-init callback of the transport created for an
initialization POST, keyed by the identifier that transport was assigned and
valued by that transport's number (in `registerMcpRoutes` the callback is
unguarded, so even an empty-string identifier is inserted); a binding
disappears only when its transport closes — in `registerMcpServer` through a
successful DELETE bearing its key, the `onclose` callback of a transport
whose `sessionId` is its key, or the shutdown hook closing it, and in
`registerMcpRoutes` (which has no shutdown hook and whose DELETE terminates
the session inside the transport) only through the `onclose` callback of a
transport whose truthy `sessionId` is its key; and every table reachable
from registration keeps its keys distinct, so at most one transport is bound
to a given identifier at any time. -/
theorem c6_table_mutation_invariant :
    (∀ (s : St) (e : Ev) (k : String) (tid : Nat),
      (tkeys s.transportMap).Nodup →
      tlookup k (stepOut s e).1.transportMap = some tid →
      tlookup k s.transportMap = some tid ∨
      ∃ hdr orc, e = Ev.req .post hdr true orc ∧ sidOf hdr = none ∧
        orc.connectOk = true ∧ orc.assignedId = some k ∧ k ≠ "" ∧
        tid = s.next) ∧
    (∀ (s : St) (e : Ev) (k : String),
      (tkeys s.transportMap).Nodup →
      (tlookup k s.transportMap).isSome = true →
      tlookup k (stepOut s e).1.transportMap = none →
      (∃ hdr i orc, e = Ev.req .delete hdr i orc ∧ sidOf hdr = some k ∧
        orc.closeOk = true) ∨
      (∃ tid, e = Ev.transportClosed tid ∧
        sidOfTransport tid s.transportSid = some k) ∨
      (∃ f, e = Ev.serverClosed f ∧ f k = true)) ∧
    (∀ es : List Ev, (tkeys (run st0 es).transportMap).Nodup) ∧
    (∀ (g : GenF) (s : St) (e : REv) (k : String) (tid : Nat),
      (tkeys s.transportMap).Nodup →
      tlookup k (routesStepOut g s e).1.transportMap = some tid →
      tlookup k s.transportMap = some tid ∨
      ∃ hdr orc, e = REv.req .post hdr true orc ∧ sidOf hdr = none ∧
        orc.connectOk = true ∧ orc.assignedId = some k ∧ tid = s.next) ∧
    (∀ (g : GenF) (s : St) (e : REv) (k : String),
      (tkeys s.transportMap).Nodup →
      (tlookup k s.transportMap).isSome = true →
      tlookup k (routesStepOut g s e).1.transportMap = none →
      ∃ tid, e = REv.transportClosed tid ∧
        sidOfTransport tid s.transportSid = some k ∧ k ≠ "") ∧
    (∀ (g : GenF) (es : List REv),
      (tkeys (routesRun g st0 es).transportMap).Nodup) := by
  refine ⟨?_, ?_, ?_, ?_, ?_, ?_⟩
  · intro s e k tid hnd hafter
    cases e with
    | req v hdr i orc =>
        cases v with
        | post =>
            rcases registerMcpServerPost_state s hdr i orc with h1 | h1 | h1
            · rw [show (stepOut s (Ev.req .post hdr i orc)).1 =
                  (registerMcpServerPost s hdr i orc).1 from rfl, h1] at hafter
              exact Or.inl hafter
            · rw [show (stepOut s (Ev.req .post hdr i orc)).1 =
                  (registerMcpServerPost s hdr i orc).1 from rfl, h1] at hafter
              exact Or.inl hafter
            · obtain ⟨sid, hsid, hi, hc, ha, hs, heq⟩ := h1
              rw [show (stepOut s (Ev.req .post hdr i orc)).1 =
                  (registerMcpServerPost s hdr i orc).1 from rfl, heq] at hafter
              by_cases hks : sid = k
              · subst hks
                rw [tlookup_tinsert_self] at hafter
                subst hi
                exact Or.inr ⟨hdr, orc, rfl, hsid, hc, ha, hs, by
                  injection hafter.symm⟩
              · rw [tlookup_tinsert_ne k sid s.next s.transportMap hks]
                  at hafter
                exact Or.inl hafter
        | get =>
            rw [show (stepOut s (Ev.req .get hdr i orc)).1 =
                (registerMcpServerGet s hdr).1 from rfl,
              registerMcpServerGet_state] at hafter
            exact Or.inl hafter
        | delete =>
            rcases registerMcpServerDelete_state s hdr orc with h1 | h1
            · rw [show (stepOut s (Ev.req .delete hdr i orc)).1 =
                  (registerMcpServerDelete s hdr orc).1 from rfl, h1] at hafter
              exact Or.inl hafter
            · obtain ⟨k0, hk0, hsome0, hc0, heq⟩ := h1
              rw [show (stepOut s (Ev.req .delete hdr i orc)).1 =
                  (registerMcpServerDelete s hdr orc).1 from rfl, heq] at hafter
              by_cases hkk : k0 = k
              · subst hkk
                rw [tlookup_terase_self k0 s.transportMap hnd] at hafter
                exact absurd hafter (by simp)
              · rw [tlookup_terase_ne k k0 s.transportMap hkk] at hafter
                exact Or.inl hafter
    | transportClosed tid0 =>
        rcases transportOnClose_state s tid0 with h1 | h1
        · rw [show (stepOut s (Ev.transportClosed tid0)).1 =
              transportOnClose s tid0 from rfl, h1] at hafter
          exact Or.inl hafter
        · obtain ⟨sid, hsid, hsome, heq⟩ := h1
          rw [show (stepOut s (Ev.transportClosed tid0)).1 =
              transportOnClose s tid0 from rfl, heq] at hafter
          by_cases hkk : sid = k
          · subst hkk
            rw [tlookup_terase_self sid s.transportMap hnd] at hafter
            exact absurd hafter (by simp)
          · rw [tlookup_terase_ne k sid s.transportMap hkk] at hafter
            exact Or.inl hafter
    | serverClosed f =>
        rw [show (stepOut s (Ev.serverClosed f)).1.transportMap =
            (onCloseHook f s.transportMap).2 from rfl,
          onCloseHook_filter, tlookup_filter_key] at hafter
        split at hafter
        · exact absurd hafter (by simp)
        · exact Or.inl hafter
  · intro s e k hnd hbefore hafter
    cases e with
    | req v hdr i orc =>
        cases v with
        | post =>
            rcases registerMcpServerPost_state s hdr i orc with h1 | h1 | h1
            · rw [show (stepOut s (Ev.req .post hdr i orc)).1 =
                  (registerMcpServerPost s hdr i orc).1 from rfl, h1] at hafter
              rw [hafter] at hbefore
              exact absurd hbefore (by simp)
            · rw [show (stepOut s (Ev.req .post hdr i orc)).1 =
                  (registerMcpServerPost s hdr i orc).1 from rfl, h1] at hafter
              rw [hafter] at hbefore
              exact absurd hbefore (by simp)
            · obtain ⟨sid, hsid, hi, hc, ha, hs, heq⟩ := h1
              rw [show (stepOut s (Ev.req .post hdr i orc)).1 =
                  (registerMcpServerPost s hdr i orc).1 from rfl, heq] at hafter
              by_cases hks : sid = k
              · subst hks
                rw [tlookup_tinsert_self] at hafter
                exact absurd hafter (by simp)
              · rw [tlookup_tinsert_ne k sid s.next s.transportMap hks]
                  at hafter
                rw [hafter] at hbefore
                exact absurd hbefore (by simp)
        | get =>
            rw [show (stepOut s (Ev.req .get hdr i orc)).1 =
                (registerMcpServerGet s hdr).1 from rfl,
              registerMcpServerGet_state] at hafter
            rw [hafter] at hbefore
            exact absurd hbefore (by simp)
        | delete =>
            rcases registerMcpServerDelete_state s hdr orc with h1 | h1
            · rw [show (stepOut s (Ev.req .delete hdr i orc)).1 =
                  (registerMcpServerDelete s hdr orc).1 from rfl, h1] at hafter
              rw [hafter] at hbefore
              exact absurd hbefore (by simp)
            · obtain ⟨k0, hk0, hsome0, hc0, heq⟩ := h1
              by_cases hkk : k0 = k
              · subst hkk
                exact Or.inl ⟨hdr, i, orc, rfl, hk0, hc0⟩
              · rw [show (stepOut s (Ev.req .delete hdr i orc)).1 =
                    (registerMcpServerDelete s hdr orc).1 from rfl, heq,
                  tlookup_terase_ne k k0 s.transportMap hkk] at hafter
                rw [hafter] at hbefore
                exact absurd hbefore (by simp)
    | transportClosed tid0 =>
        rcases transportOnClose_state s tid0 with h1 | h1
        · rw [show (stepOut s (Ev.transportClosed tid0)).1 =
              transportOnClose s tid0 from rfl, h1] at hafter
          rw [hafter] at hbefore
          exact absurd hbefore (by simp)
        · obtain ⟨sid, hsid, hsome, heq⟩ := h1
          by_cases hkk : sid = k
          · subst hkk
            exact Or.inr (Or.inl ⟨tid0, rfl, hsid⟩)
          · rw [show (stepOut s (Ev.transportClosed tid0)).1 =
                transportOnClose s tid0 from rfl, heq,
              tlookup_terase_ne k sid s.transportMap hkk] at hafter
            rw [hafter] at hbefore
            exact absurd hbefore (by simp)
    | serverClosed f =>
        rw [show (stepOut s (Ev.serverClosed f)).1.transportMap =
            (onCloseHook f s.transportMap).2 from rfl,
          onCloseHook_filter, tlookup_filter_key] at hafter
        cases hf : f k with
        | true => exact Or.inr (Or.inr ⟨f, rfl, hf⟩)
        | false =>
            rw [if_neg (by simp [hf])] at hafter
            rw [hafter] at hbefore
            exact absurd hbefore (by simp)
  · intro es
    exact keysNodup_run st0 es (by simp [KeysNodup, st0, tkeys])
  · intro g s e k tid hnd hafter
    cases e with
    | req v hdr i orc =>
        cases v with
        | post =>
            rcases registerMcpRoutesPost_state s hdr i orc with h1 | h1 | h1
            · rw [show (routesStepOut g s (REv.req .post hdr i orc)).1 =
                  (registerMcpRoutesPost s hdr i orc).1 from rfl, h1] at hafter
              exact Or.inl hafter
            · rw [show (routesStepOut g s (REv.req .post hdr i orc)).1 =
                  (registerMcpRoutesPost s hdr i orc).1 from rfl, h1] at hafter
              exact Or.inl hafter
            · obtain ⟨sid, hsid, hi, hc, ha, heq⟩ := h1
              rw [show (routesStepOut g s (REv.req .post hdr i orc)).1 =
                  (registerMcpRoutesPost s hdr i orc).1 from rfl, heq] at hafter
              by_cases hks : sid = k
              · subst hks
                rw [tlookup_tinsert_self] at hafter
                subst hi
                exact Or.inr ⟨hdr, orc, rfl, hsid, hc, ha, by
                  injection hafter.symm⟩
              · rw [tlookup_tinsert_ne k sid s.next s.transportMap hks]
                  at hafter
                exact Or.inl hafter
        | get =>
            rw [show (routesStepOut g s (REv.req .get hdr i orc)).1 = s
                from rfl] at hafter
            exact Or.inl hafter
        | delete =>
            rw [show (routesStepOut g s (REv.req .delete hdr i orc)).1 = s
                from rfl] at hafter
            exact Or.inl hafter
    | transportClosed tid0 =>
        rcases registerMcpRoutesOnClose_state s tid0 with h1 | h1
        · rw [show (routesStepOut g s (REv.transportClosed tid0)).1 =
              registerMcpRoutesOnClose s tid0 from rfl, h1] at hafter
          exact Or.inl hafter
        · obtain ⟨sid, hsid, hne, heq⟩ := h1
          rw [show (routesStepOut g s (REv.transportClosed tid0)).1 =
              registerMcpRoutesOnClose s tid0 from rfl, heq] at hafter
          by_cases hkk : sid = k
          · subst hkk
            rw [tlookup_terase_self sid s.transportMap hnd] at hafter
            exact absurd hafter (by simp)
          · rw [tlookup_terase_ne k sid s.transportMap hkk] at hafter
            exact Or.inl hafter
  · intro g s e k hnd hbefore hafter
    cases e with
    | req v hdr i orc =>
        cases v with
        | post =>
            rcases registerMcpRoutesPost_state s hdr i orc with h1 | h1 | h1
            · rw [show (routesStepOut g s (REv.req .post hdr i orc)).1 =
                  (registerMcpRoutesPost s hdr i orc).1 from rfl, h1] at hafter
              rw [hafter] at hbefore
              exact absurd hbefore (by simp)
            · rw [show (routesStepOut g s (REv.req .post hdr i orc)).1 =
                  (registerMcpRoutesPost s hdr i orc).1 from rfl, h1] at hafter
              rw [hafter] at hbefore
              exact absurd hbefore (by simp)
            · obtain ⟨sid, hsid, hi, hc, ha, heq⟩ := h1
              rw [show (routesStepOut g s (REv.req .post hdr i orc)).1 =
                  (registerMcpRoutesPost s hdr i orc).1 from rfl, heq] at hafter
              by_cases hks : sid = k
              · subst hks
                rw [tlookup_tinsert_self] at hafter
                exact absurd hafter (by simp)
              · rw [tlookup_tinsert_ne k sid s.next s.transportMap hks]
                  at hafter
                rw [hafter] at hbefore
                exact absurd hbefore (by simp)
        | get =>
            rw [show (routesStepOut g s (REv.req .get hdr i orc)).1 = s
                from rfl] at hafter
            rw [hafter] at hbefore
            exact absurd hbefore (by simp)
        | delete =>
            rw [show (routesStepOut g s (REv.req .delete hdr i orc)).1 = s
                from rfl] at hafter
            rw [hafter] at hbefore
            exact absurd hbefore (by simp)
    | transportClosed tid0 =>
        rcases registerMcpRoutesOnClose_state s tid0 with h1 | h1
        · rw [show (routesStepOut g s (REv.transportClosed tid0)).1 =
              registerMcpRoutesOnClose s tid0 from rfl, h1] at hafter
          rw [hafter] at hbefore
          exact absurd hbefore (by simp)
        · obtain ⟨sid, hsid, hne, heq⟩ := h1
          by_cases hkk : sid = k
          · subst hkk
            exact ⟨tid0, rfl, hsid, hne⟩
          · rw [show (routesStepOut g s (REv.transportClosed tid0)).1 =
                registerMcpRoutesOnClose s tid0 from rfl, heq,
              tlookup_terase_ne k sid s.transportMap hkk] at hafter
            rw [hafter] at hbefore
            exact absurd hbefore (by simp)
  · intro g es
    exact routesKeysNodup_run g st0 es (by simp [KeysNodup, st0, tkeys])

/-- Witness for C6: on the empty registry, the initialization POST that is
assigned identifier "A" explains the new binding ("A" ↦ transport 0) of
`registerMcpServer` through the insertion-provenance disjunction, and the
initialization POST assigned "B" explains the new binding ("B" ↦ transport
0) of `registerMcpRoutes` likewise. -/
theorem c6_witness :
    (tlookup "A" st0.transportMap = some 0 ∨
      ∃ hdr orc, Ev.req .post none true
          (⟨true, some "A", true, false, true⟩ : Orc) =
          Ev.req .post hdr true orc ∧ sidOf hdr = none ∧
        orc.connectOk = true ∧ orc.assignedId = some "A" ∧ "A" ≠ "" ∧
        0 = st0.next) ∧
    (tlookup "B" st0.transportMap = some 0 ∨
      ∃ hdr orc, REv.req .post none true
          (⟨true, some "B", true, false, true⟩ : Orc) =
          REv.req .post hdr true orc ∧ sidOf hdr = none ∧
        orc.connectOk = true ∧ orc.assignedId = some "B" ∧ 0 = st0.next) :=
  ⟨c6_table_mutation_invariant.1 st0
      (Ev.req .post none true ⟨true, some "A", true, false, true⟩) "A" 0
      (by decide) (by decide),
    c6_table_mutation_invariant.2.2.2.1 randomUUIDModel st0
      (REv.req .post none true ⟨true, some "B", true, false, true⟩) "B" 0
      (by decide) (by decide)⟩

/-! ## Claim C7 -/

/-- C7: under the spec's contract that the injected identifier generator
returns values unique across the registry's lifetime (`traceOk`), the
identifier assigned during an initialization POST with a falsy prior header —
the string surfaced in the reply's `mcp-session-id` header — is distinct from
the identifier of every other currently-active session in the table. -/
theorem c7_fresh_identifier_distinct (es : List Ev) (hdr : Option String)
    (orc : Orc) (sid : String)
    (htr : traceOk st0 (es ++ [Ev.req .post hdr true orc]) = true)
    (hhdr : sidOf hdr = none) (hc : orc.connectOk = true)
    (ha : orc.assignedId = some sid) :
    ∀ k, (tlookup k (run st0 es).transportMap).isSome = true → sid ≠ k := by
  obtain ⟨htr1, htr2⟩ :=
    traceOk_append st0 es [Ev.req .post hdr true orc] htr
  simp only [traceOk, Bool.and_eq_true] at htr2
  have hf : sid ∉ (run st0 es).gens := by
    have := htr2.1
    simp [freshEv, hhdr, hc, ha] at this
    exact this
  intro k hk hsk
  exact hf (hsk ▸ keysGen_run st0 es keysGen_st0 k hk)

/-- Witness for C7: after a session "A" is active, an initialization POST
assigned the fresh identifier "B" surfaces a header distinct from "A". -/
theorem c7_witness : "B" ≠ "A" :=
  c7_fresh_identifier_distinct
    [Ev.req .post none true ⟨true, some "A", true, false, true⟩] none
    ⟨true, some "B", true, false, true⟩ "B" (by decide) (by decide)
    (by decide) (by decide) "A" (by decide)

/-! ## Claim C8 -/

/-- C8: whenever the stateless handler constructs a transport, the
connection-close callback that closes that transport and its server is
already registered on the raw request — whatever `connect`, `handleRequest`
and `reply.sent` do afterwards — so the transport (and its server) is closed
when the request's underlying connection closes, regardless of whether the
reply was fully sent, and no transport created by the handler outlives its
request's connection. -/
theorem c8_conn_close_closes_transport (tid : Nat) (orc : SOrc) (t : Nat)
    (h : (createStatelessMcpHandler tid orc).transportCreated = some t) :
    SAct.closeTransport t ∈ (createStatelessMcpHandler tid orc).connCloseActions ∧
    SAct.closeServer ∈ (createStatelessMcpHandler tid orc).connCloseActions := by
  unfold createStatelessMcpHandler at h ⊢
  cases hg : orc.getServerOk with
  | false => simp [hg] at h
  | true =>
      cases hc : orc.connectOk <;> cases hh : orc.handleOk <;>
        cases hs : orc.sent <;> simp [hg, hc, hh, hs] at h ⊢ <;>
          simp [h]

/-- Witness for C8: a run whose `handleRequest` rejected before any reply
was sent still has the close-transport and close-server callbacks
registered. -/
theorem c8_witness :
    SAct.closeTransport 0 ∈
      (createStatelessMcpHandler 0 ⟨true, true, false, false⟩).connCloseActions ∧
    SAct.closeServer ∈
      (createStatelessMcpHandler 0 ⟨true, true, false, false⟩).connCloseActions :=
  c8_conn_close_closes_transport 0 ⟨true, true, false, false⟩ 0 (by decide)

/-! ## Claim C9 -/

/-- Whether an outcome is the 405 stateless-mode rejection. -/
def isMethodNotAllowed : Out → Bool
  | .methodNotAllowed => true
  | _ => false

/-- C9: for every options argument to `registerMcpRoutes` — including one
whose `sessionIdGenerator` property is explicitly `undefined`, which the
destructuring default treats like an absent property — the destructured
generator is a defined function, so the adapter always operates in stateful
mode and the 405 "Method not allowed in stateless mode" branch of the shared
GET/DELETE helper is unreachable. -/
theorem c9_default_generator_stateful (o : FastifyMcpAdapterOptions)
    (tbl : List (String × Nat)) (hdr : Option String) :
    (destructuredSessionIdGenerator o).isSome = true ∧
    isMethodNotAllowed
        (handleSessionRequest (destructuredSessionIdGenerator o) tbl hdr) =
      false := by
  have hg : ∃ g, destructuredSessionIdGenerator o = some g := by
    unfold destructuredSessionIdGenerator
    cases o.sessionIdGenerator with
    | none => exact ⟨randomUUIDModel, rfl⟩
    | some g => exact ⟨g, rfl⟩
  obtain ⟨g, hg⟩ := hg
  refine ⟨by simp [hg], ?_⟩
  rw [hg]
  unfold handleSessionRequest
  cases hsid : sidOf hdr with
  | none => simp [isMethodNotAllowed]
  | some k =>
      cases htl : tlookup k tbl with
      | none => simp [htl, isMethodNotAllowed]
      | some tid => simp [htl, isMethodNotAllowed]

/-! ## Claim C10 -/

/-- C10: whenever the session-id header names an entry of the table, the GET
handler of `registerMcpServer` writes status 200 with the SSE headers on the
raw reply as its first effect, before the transport handles the request; the
client therefore observes status 200, and the effect trace is the same
whether or not `handleRequest` faults — a fault can only end the stream,
never produce a non-200 status or an error envelope. -/
theorem c10_get_writes_200_first (s : St) (hdr : Option String) (k : String)
    (tid : Nat) (ho ae : Bool) (hsid : sidOf hdr = some k)
    (htl : tlookup k s.transportMap = some tid) :
    registerMcpServerGetEffects s.transportMap hdr ho ae =
      GEff.writeHead 200 true :: GEff.handleRequest tid ::
        (if ae then [] else [GEff.endStream]) ∧
    firstStatus (registerMcpServerGetEffects s.transportMap hdr ho ae) =
      some 200 ∧
    registerMcpServerGet s hdr = (s, .sse tid) ∧
    statusOf (.sse tid) = some 200 ∧
    bodyOf (.sse tid) = .stream := by
  have heff : registerMcpServerGetEffects s.transportMap hdr ho ae =
      GEff.writeHead 200 true :: GEff.handleRequest tid ::
        (if ae then [] else [GEff.endStream]) := by
    unfold registerMcpServerGetEffects
    rw [hsid]
    simp [htl]
  refine ⟨heff, by rw [heff]; rfl, ?_, rfl, rfl⟩
  unfold registerMcpServerGet
  rw [hsid]
  simp [htl]

/-- Witness for C10: on the registry holding session "A", a GET bearing "A"
whose `handleRequest` faults still writes status 200 first and yields the
SSE outcome. -/
theorem c10_witness :
    registerMcpServerGetEffects
        (⟨[("A", 0)], [(0, "A")], ["A"], 1⟩ : St).transportMap (some "A")
        false false =
      GEff.writeHead 200 true :: GEff.handleRequest 0 ::
        (if false then [] else [GEff.endStream]) ∧
    firstStatus (registerMcpServerGetEffects
        (⟨[("A", 0)], [(0, "A")], ["A"], 1⟩ : St).transportMap (some "A")
        false false) = some 200 ∧
    registerMcpServerGet (⟨[("A", 0)], [(0, "A")], ["A"], 1⟩ : St)
        (some "A") = ((⟨[("A", 0)], [(0, "A")], ["A"], 1⟩ : St), .sse 0) ∧
    statusOf (.sse 0) = some 200 ∧
    bodyOf (.sse 0) = .stream :=
  c10_get_writes_200_first (⟨[("A", 0)], [(0, "A")], ["A"], 1⟩ : St)
    (some "A") "A" 0 false false (by decide) (by decide)
